import Mathlib

/-!
Shallow embedding of the s68k TypeScript wrapper module (the single source
file of this repository).  The module wraps a wasm core (`./pkg/s68k`):
every `wasm_*` call crosses the language boundary into that core, whose code
is not part of this repository.  The core is therefore represented by an
abstract record of pure functions (`S68kCore`); the wrapper classes and
functions are translated from the TypeScript source and take the core as an
explicit argument, so theorems about the wrapper hold for every possible
core.  Wasm objects that the TypeScript code only passes around are opaque
carriers (a numeric tag).  Mutation of a wasm object (`wasm_step`,
`wasm_run`, `wasm_answer_interrupt`, `wasm_set_register_value`) is modelled
by explicit state passing: the core function returns the updated
`RawInterpreter` next to its result.

Two claims concern the behaviour of the core itself (the step/run loop and
register width masking); the definitions settling them are modelled from the
spec and say so in their doc comments.
-/

/-- Opaque carrier for the wasm `S68k` object; the TypeScript constructor
`new RawS68k(code)` only captures the source text. -/
structure RawS68k where
  code : String
deriving DecidableEq, Repr, Inhabited

/-- Opaque carrier for a wasm `SemanticError` object. -/
structure RawSemanticError where
  tag : Nat
deriving DecidableEq, Repr, Inhabited

/-- Opaque carrier for the wasm error-wrapper object returned by
`wasm_semantic_check` (exposes `get_length` / `get_error_at_index`). -/
structure WasmErrorWrapper where
  tag : Nat
deriving DecidableEq, Repr, Inhabited

/-- Opaque carrier for a wasm `Compiler` (compiled program) object. -/
structure RawCompiler where
  tag : Nat
deriving DecidableEq, Repr, Inhabited

/-- Opaque carrier for a wasm `Interpreter` object (a state of the core). -/
structure RawInterpreter where
  tag : Nat
deriving DecidableEq, Repr, Inhabited

/-- Opaque carrier for a wasm `Cpu` snapshot object. -/
structure RawCpu where
  tag : Nat
deriving DecidableEq, Repr, Inhabited

/-- Opaque carrier for a wasm `Register` object. -/
structure RawRegister where
  tag : Nat
deriving DecidableEq, Repr, Inhabited

/-- Opaque carrier for an `Interrupt` descriptor. -/
structure Interrupt where
  tag : Nat
deriving DecidableEq, Repr, Inhabited

/-- Opaque carrier for an `InterruptResult` value. -/
structure InterruptResult where
  tag : Nat
deriving DecidableEq, Repr, Inhabited

/-- Opaque carrier for an `InstructionLine` record. -/
structure InstructionLine where
  tag : Nat
deriving DecidableEq, Repr, Inhabited

/-- Opaque carrier for a `RegisterOperand` value. -/
structure RegisterOperand where
  tag : Nat
deriving DecidableEq, Repr, Inhabited

/-- The core's `InterpreterStatus` enum as the TypeScript module names it. -/
inductive InterpreterStatus where
  | Running
  | Interrupt
  | Terminated
  | TerminatedByFault
deriving DecidableEq, Repr, Inhabited

/-- The core's `Size` enum (operand width). -/
inductive Size where
  | Byte
  | Word
  | Long
deriving DecidableEq, Repr, Inhabited

/-- The `Step` record returned by `wasm_step`: in JavaScript it is the pair
`[instructionLine, status]` that the wrapper destructures as
`const [_, status] = step`. -/
structure Step where
  instruction : Option InstructionLine
  status : InterpreterStatus
deriving DecidableEq, Repr, Inhabited

/-- The wasm core as an abstract record of pure functions: one field per
`wasm_*`/wrapper entry point the TypeScript module calls.  Stateful calls
return the updated `RawInterpreter` next to their result. -/
structure S68kCore where
  wasm_semantic_check : RawS68k → WasmErrorWrapper
  get_length : WasmErrorWrapper → Nat
  get_error_at_index : WasmErrorWrapper → Nat → RawSemanticError
  wasm_get_message : RawSemanticError → String
  wasm_get_line : RawSemanticError → Nat
  wasm_compile : RawS68k → RawCompiler
  wasm_create_interpreter : RawS68k → RawCompiler → Nat → RawInterpreter
  wasm_step : RawInterpreter → Step × RawInterpreter
  wasm_run : RawInterpreter → InterpreterStatus × RawInterpreter
  wasm_answer_interrupt : RawInterpreter → InterruptResult → RawInterpreter
  wasm_get_current_interrupt : RawInterpreter → Option Interrupt
  wasm_get_flags_as_array : RawInterpreter → List Nat
  wasm_get_flags_as_number : RawInterpreter → Nat
  wasm_get_cpu_snapshot : RawInterpreter → RawCpu
  wasm_get_a_regs_value : RawCpu → List Nat
  wasm_get_d_regs_value : RawCpu → List Nat
  wasm_get_a_reg : RawCpu → Nat → RawRegister
  wasm_get_d_reg : RawCpu → Nat → RawRegister
  wasm_get_long : RawRegister → Nat
  wasm_get_word : RawRegister → Nat
  wasm_get_byte : RawRegister → Nat

/-- The TypeScript `RegisterType` enum is numeric (`Data = 0`); values
outside the enum can be passed at runtime, so members are plain numbers. -/
def RegisterType.Data : Nat := 0

/-- Second member of the numeric `RegisterType` enum (`Address = 1`). -/
def RegisterType.Address : Nat := 1

/-- Wrapper class `Register`: holds a `RawRegister`. -/
structure Register where
  register : RawRegister
deriving DecidableEq, Repr, Inhabited

/-- `Register.getLong()`: pass-through to `wasm_get_long`. -/
def Register.getLong (core : S68kCore) (r : Register) : Nat :=
  core.wasm_get_long r.register

/-- `Register.getWord()`: pass-through to `wasm_get_word`. -/
def Register.getWord (core : S68kCore) (r : Register) : Nat :=
  core.wasm_get_word r.register

/-- `Register.getByte()`: pass-through to `wasm_get_byte`. -/
def Register.getByte (core : S68kCore) (r : Register) : Nat :=
  core.wasm_get_byte r.register

/-- Wrapper class `Cpu`: holds a `RawCpu` snapshot. -/
structure Cpu where
  cpu : RawCpu
deriving DecidableEq, Repr, Inhabited

/-- `Cpu.getRegistersValues()`: reads the address-register values and the
data-register values from the core and returns `[...dReg, ...aReg]`. -/
def Cpu.getRegistersValues (core : S68kCore) (c : Cpu) : List Nat :=
  let aReg := core.wasm_get_a_regs_value c.cpu
  let dReg := core.wasm_get_d_regs_value c.cpu
  dReg ++ aReg

/-- `Cpu.getRegister(register, type)`: returns a data register when
`type == RegisterType.Data`, otherwise an address register (the enum is
numeric, so any other number also lands in the else branch). -/
def Cpu.getRegister (core : S68kCore) (c : Cpu) (register : Nat) (type : Nat) :
    Register :=
  if type = RegisterType.Data then Register.mk (core.wasm_get_d_reg c.cpu register)
  else Register.mk (core.wasm_get_a_reg c.cpu register)

/-- `Cpu.getRegisterValue(register, type)`: long read of `getRegister`. -/
def Cpu.getRegisterValue (core : S68kCore) (c : Cpu) (register : Nat) (type : Nat) :
    Nat :=
  Register.getLong core (Cpu.getRegister core c register type)

/-- Wrapper class `Interpreter`: holds the `RawInterpreter`. -/
structure Interpreter where
  interpreter : RawInterpreter
deriving DecidableEq, Repr, Inhabited

/-- `Interpreter.answerInterrupt(result)`: pass-through to
`wasm_answer_interrupt` (state passing models the wasm mutation). -/
def Interpreter.answerInterrupt (core : S68kCore) (it : Interpreter)
    (interruptResult : InterruptResult) : Interpreter :=
  Interpreter.mk (core.wasm_answer_interrupt it.interpreter interruptResult)

/-- `Interpreter.step()`: pass-through to `wasm_step`. -/
def Interpreter.step (core : S68kCore) (it : Interpreter) : Step × Interpreter :=
  let p := core.wasm_step it.interpreter
  (p.1, Interpreter.mk p.2)

/-- `Interpreter.getCurrentInterrupt()`: pass-through returning
`Interrupt | null`. -/
def Interpreter.getCurrentInterrupt (core : S68kCore) (it : Interpreter) :
    Option Interrupt :=
  core.wasm_get_current_interrupt it.interpreter

/-- `Interpreter.stepWithInterruptHandler(onInterrupt)`: performs one
`wasm_step`; when the resulting status is `Interrupt` it hands the current
interrupt (non-null asserted in the source) to the handler and, only when the
handler produced a result, answers the interrupt.  The handler's possible
asynchrony is invisible to the engine, so it is modelled as a function into
`Option InterruptResult` (`none` = the handler returned nothing). -/
def Interpreter.stepWithInterruptHandler (core : S68kCore) (it : Interpreter)
    (onInterrupt : Interrupt → Option InterruptResult) : Step × Interpreter :=
  let p := core.wasm_step it.interpreter
  let step := p.1
  let it1 := Interpreter.mk p.2
  if step.status = InterpreterStatus.Interrupt then
    match onInterrupt ((Interpreter.getCurrentInterrupt core it1).getD default) with
    | some result => (step, Interpreter.answerInterrupt core it1 result)
    | none => (step, it1)
  else (step, it1)

/-- `Interpreter.getFlagsAsArray()`: spreads the core's flag array and maps
each entry to `v == 1`. -/
def Interpreter.getFlagsAsArray (core : S68kCore) (it : Interpreter) : List Bool :=
  (core.wasm_get_flags_as_array it.interpreter).map (fun v => v == 1)

/-- `Interpreter.getFlagsAsBitfield()`: pass-through to
`wasm_get_flags_as_number`. -/
def Interpreter.getFlagsAsBitfield (core : S68kCore) (it : Interpreter) : Nat :=
  core.wasm_get_flags_as_number it.interpreter

/-- `Interpreter.getCpuSnapshot()`: wraps `wasm_get_cpu_snapshot`. -/
def Interpreter.getCpuSnapshot (core : S68kCore) (it : Interpreter) : Cpu :=
  Cpu.mk (core.wasm_get_cpu_snapshot it.interpreter)

/-- `Interpreter.run()`: pass-through to `wasm_run`. -/
def Interpreter.run (core : S68kCore) (it : Interpreter) :
    InterpreterStatus × Interpreter :=
  let p := core.wasm_run it.interpreter
  (p.1, Interpreter.mk p.2)

/-- `Interpreter.runWithInterruptHandler(onInterrupt)`: one `wasm_run`; when
the returned status is `Interrupt` the handler receives the current
interrupt and, only when it produced a result, the interrupt is answered. -/
def Interpreter.runWithInterruptHandler (core : S68kCore) (it : Interpreter)
    (onInterrupt : Interrupt → Option InterruptResult) :
    InterpreterStatus × Interpreter :=
  let p := core.wasm_run it.interpreter
  let status := p.1
  let it1 := Interpreter.mk p.2
  if status = InterpreterStatus.Interrupt then
    match onInterrupt ((Interpreter.getCurrentInterrupt core it1).getD default) with
    | some result => (status, Interpreter.answerInterrupt core it1 result)
    | none => (status, it1)
  else (status, it1)

/-- Wrapper class `SemanticError`: holds a `RawSemanticError`. -/
structure SemanticError where
  error : RawSemanticError
deriving DecidableEq, Repr, Inhabited

/-- `SemanticError.getMessage()`: pass-through to `wasm_get_message`. -/
def SemanticError.getMessage (core : S68kCore) (e : SemanticError) : String :=
  core.wasm_get_message e.error

/-- `SemanticError.getLineIndex()`: pass-through to `wasm_get_line`. -/
def SemanticError.getLineIndex (core : S68kCore) (e : SemanticError) : Nat :=
  core.wasm_get_line e.error

/-- Wrapper class `CompiledProgram`: holds a `RawCompiler`. -/
structure CompiledProgram where
  program : RawCompiler
deriving DecidableEq, Repr, Inhabited

/-- `CompiledProgram.getCompiledProgram()`: returns the held compiler. -/
def CompiledProgram.getCompiledProgram (p : CompiledProgram) : RawCompiler :=
  p.program

/-- Wrapper class `S68k`: its constructor stores `new RawS68k(code)`. -/
structure S68k where
  _s68k : RawS68k
deriving DecidableEq, Repr, Inhabited

/-- The `S68k` constructor, `new S68k(code)`. -/
def S68k.new (code : String) : S68k :=
  S68k.mk (RawS68k.mk code)

/-- Instance method `semanticCheck()`: asks the core for the error wrapper
and builds the list of wrapped errors indexed `0 ≤ i < get_length`. -/
def S68k.semanticCheck (core : S68kCore) (s : S68k) : List SemanticError :=
  let errorWrapper := core.wasm_semantic_check s._s68k
  (List.range (core.get_length errorWrapper)).map
    (fun i => SemanticError.mk (core.get_error_at_index errorWrapper i))

/-- Static method `S68k.semanticCheck(code)` (renamed: Lean cannot overload
the instance method's name): checks a fresh `S68k` built on `code`. -/
def S68k.semanticCheckStatic (core : S68kCore) (code : String) :
    List SemanticError :=
  S68k.semanticCheck core (S68k.new code)

/-- Instance method `compile()` (renamed: the static method `S68k.compile`
keeps the source name): wraps `wasm_compile`. -/
def S68k.compileMethod (core : S68kCore) (s : S68k) : CompiledProgram :=
  CompiledProgram.mk (core.wasm_compile s._s68k)

/-- `createInterpreter(memorySize, program?)` with both arguments explicit
(an `Option` models the optional `program`). -/
def S68k.createInterpreter (core : S68kCore) (s : S68k) (memorySize : Nat)
    (program : Option CompiledProgram) : Interpreter :=
  match program with
  | some p =>
      Interpreter.mk
        (core.wasm_create_interpreter s._s68k p.getCompiledProgram memorySize)
  | none =>
      Interpreter.mk
        (core.wasm_create_interpreter s._s68k
          (S68k.compileMethod core s).getCompiledProgram memorySize)

/-- The default of the `memorySize` parameter, `0xFFFFFF` in the source. -/
def S68k.defaultMemorySize : Nat := 0xFFFFFF

/-- `createInterpreter()` with every argument left to its default
(`memorySize = 0xFFFFFF`, no program). -/
def S68k.createInterpreterDefault (core : S68kCore) (s : S68k) : Interpreter :=
  S68k.createInterpreter core s S68k.defaultMemorySize none

/-- The `CompilationResult` union type: `{ok: false, errors}` or
`{ok: true, interpreter}`. -/
inductive CompilationResult where
  | err (errors : List SemanticError)
  | ok (interpreter : Interpreter)
deriving DecidableEq, Repr

/-- Static method `S68k.compile(code, memorySize)`: builds a fresh `S68k`,
runs the instance semantic check, stops with the errors when there are any,
otherwise constructs the interpreter with the given memory size. -/
def S68k.compile (core : S68kCore) (code : String) (memorySize : Nat) :
    CompilationResult :=
  let s68k := S68k.new code
  let errors := S68k.semanticCheck core s68k
  if errors.length > 0 then CompilationResult.err errors
  else CompilationResult.ok (S68k.createInterpreter core s68k memorySize none)

/-- Modelled from the spec: the core's step/run loop is not in this
repository (it sits behind `wasm_step` / `wasm_run`).  `stepN` iterates one
core step N times over an arbitrary interpreter-state type; `statusOf` reads
the state's status. -/
def stepN {State : Type} (stepFn : State → State) : Nat → State → State
  | 0, s => s
  | n + 1, s => stepN stepFn n (stepFn s)

/-- Modelled from the spec: `run()` repeatedly steps until the status is no
longer `Running`.  Since a guest loop can make `run()` diverge, the loop is
fuel-indexed; `run()`'s value is `runFuel` at any sufficiently large fuel. -/
def runFuel {State : Type} (stepFn : State → State)
    (statusOf : State → InterpreterStatus) : Nat → State → State
  | 0, s => s
  | f + 1, s =>
      if statusOf s = InterpreterStatus.Running then
        runFuel stepFn statusOf f (stepFn s)
      else s

/-- A state the step function fixes stays fixed under any number of steps. -/
theorem stepN_fixpoint {State : Type} (stepFn : State → State) (s : State)
    (hfix : stepFn s = s) : ∀ n, stepN stepFn n s = s
  | 0 => rfl
  | n + 1 => by
      rw [stepN, hfix]
      exact stepN_fixpoint stepFn s hfix n

/-- Modelled from the spec: a register holds a 32-bit value and writes are
width-qualified — writing `value` at width `size` replaces the low
`sizeBits size` bits and keeps the high bits.  This is the core behaviour
behind `Interpreter.setRegisterValue` (`wasm_set_register_value`), which is
not in this repository. -/
def sizeBits : Size → Nat
  | Size.Byte => 8
  | Size.Word => 16
  | Size.Long => 32

/-- Modelled from the spec: width-qualified register write (see `sizeBits`);
high-order bits above the written width are preserved. -/
def writeRegisterSized (old value : Nat) (size : Size) : Nat :=
  old / 2 ^ sizeBits size * 2 ^ sizeBits size + value % 2 ^ sizeBits size

/-- Modelled from the spec: width-qualified register read — the low
`sizeBits size` bits of the register, unsigned.  This is the core behaviour
behind `Interpreter.getRegisterValue` (`wasm_get_register_value`). -/
def readRegisterSized (reg : Nat) (size : Size) : Nat :=
  reg % 2 ^ sizeBits size

/-- Claim C2: calling `createInterpreter` with no `memorySize` argument
constructs the interpreter with a memory size of exactly 16777215 bytes
(`0xFFFFFF`): the defaulted call hands the core constructor the program
compiled from the source together with the literal 16777215. -/
theorem createInterpreter_default_memory (core : S68kCore) (s : S68k) :
    S68k.createInterpreterDefault core s =
      Interpreter.mk
        (core.wasm_create_interpreter s._s68k (core.wasm_compile s._s68k) 16777215) ∧
    S68k.defaultMemorySize = 16777215 := by
  constructor
  · rfl
  · rfl

/-- Claim C7: `createInterpreter` with an existing `CompiledProgram` builds
the interpreter from exactly that program — the result is unchanged under
any change of the core's `wasm_compile` (so `compile` is not invoked), and
two such calls on the same program feed the core the same compiled program —
while `createInterpreter` without a program compiles first. -/
theorem createInterpreter_reuse (core coreAlt : S68kCore) (s : S68k)
    (memorySize : Nat) (p : CompiledProgram) :
    S68k.createInterpreter core s memorySize (some p) =
      Interpreter.mk (core.wasm_create_interpreter s._s68k p.program memorySize) ∧
    (core.wasm_create_interpreter = coreAlt.wasm_create_interpreter →
      S68k.createInterpreter core s memorySize (some p) =
        S68k.createInterpreter coreAlt s memorySize (some p)) ∧
    S68k.createInterpreter core s memorySize none =
      Interpreter.mk
        (core.wasm_create_interpreter s._s68k (core.wasm_compile s._s68k)
          memorySize) := by
  refine ⟨rfl, ?_, rfl⟩
  intro h
  simp [S68k.createInterpreter, h]

/-- Claim C1: `S68k.compile(code, memorySize)` returns `{ok: false, errors}`
with the non-empty semantic error list, constructing no interpreter, exactly
when the semantic check of the source reports at least one error; with an
empty error list it returns `{ok: true, interpreter}` where the interpreter
is built (via `createInterpreter`) with the given memory size. -/
theorem compile_pipeline (core : S68kCore) (code : String) (memorySize : Nat) :
    (S68k.semanticCheckStatic core code ≠ [] →
      S68k.compile core code memorySize =
        CompilationResult.err (S68k.semanticCheckStatic core code)) ∧
    (S68k.semanticCheckStatic core code = [] →
      S68k.compile core code memorySize =
        CompilationResult.ok
          (S68k.createInterpreter core (S68k.new code) memorySize none)) ∧
    (∀ errors, S68k.compile core code memorySize = CompilationResult.err errors →
      errors ≠ [] ∧ errors = S68k.semanticCheckStatic core code) ∧
    (∀ interpreter,
      S68k.compile core code memorySize = CompilationResult.ok interpreter →
      S68k.semanticCheckStatic core code = []) := by
  by_cases h : S68k.semanticCheck core (S68k.new code) = []
  · refine ⟨fun hne => absurd h hne, fun _ => ?_, ?_, fun interpreter _ => h⟩
    · simp [S68k.compile, S68k.semanticCheckStatic, h]
    · intro errors herr
      exfalso
      simp [S68k.compile, h] at herr
  · have hlen : 0 < (S68k.semanticCheck core (S68k.new code)).length :=
      List.length_pos.mpr h
    refine ⟨fun _ => ?_, fun he => absurd he h, ?_, ?_⟩
    · simp [S68k.compile, S68k.semanticCheckStatic, hlen]
    · intro errors herr
      simp [S68k.compile, hlen] at herr
      exact ⟨herr ▸ h, herr.symm⟩
    · intro interpreter hok
      exfalso
      simp [S68k.compile, hlen] at hok

/-- Claim C3: the instance `semanticCheck` returns a list whose length is the
core's reported error count, whose i-th element wraps the core's error at
index i (order preserved), and `getMessage` / `getLineIndex` return the
core's message and zero-based line index unaltered. -/
theorem semanticCheck_marshalling (core : S68kCore) (s : S68k) :
    (S68k.semanticCheck core s).length =
      core.get_length (core.wasm_semantic_check s._s68k) ∧
    (∀ i, i < (S68k.semanticCheck core s).length →
      (S68k.semanticCheck core s).getD i default =
        SemanticError.mk
          (core.get_error_at_index (core.wasm_semantic_check s._s68k) i)) ∧
    (∀ e : SemanticError,
      SemanticError.getMessage core e = core.wasm_get_message e.error ∧
      SemanticError.getLineIndex core e = core.wasm_get_line e.error) := by
  refine ⟨by simp [S68k.semanticCheck], ?_, fun e => ⟨rfl, rfl⟩⟩
  intro i hi
  rw [List.getD_eq_getElem _ _ hi]
  simp only [S68k.semanticCheck] at hi ⊢
  simp at hi
  simp [hi]

/-- Claim C4: the static `S68k.semanticCheck` is deterministic — two
invocations on identical source yield the same error list — and it equals
the instance `semanticCheck` of a freshly constructed `S68k` on that source
(any two instances holding the same source agree as well). -/
theorem semanticCheck_deterministic (core : S68kCore) (code : String) :
    S68k.semanticCheckStatic core code = S68k.semanticCheckStatic core code ∧
    S68k.semanticCheckStatic core code =
      S68k.semanticCheck core (S68k.new code) ∧
    (∀ sA sB : S68k, sA._s68k.code = code → sB._s68k.code = code →
      S68k.semanticCheck core sA = S68k.semanticCheck core sB) := by
  refine ⟨rfl, rfl, ?_⟩
  intro sA sB hA hB
  have : sA = sB := by
    cases sA with
    | mk rA => cases sB with
      | mk rB =>
          cases rA
          cases rB
          simp_all
  rw [this]

/-- Claim C6: `getFlagsAsArray` returns a boolean list of the same length
and order as the core's flag array, entry i being true exactly when the
core's entry i equals 1; `getFlagsAsBitfield` returns the core's packed
bitfield unaltered. -/
theorem flags_marshalling (core : S68kCore) (it : Interpreter) :
    (Interpreter.getFlagsAsArray core it).length =
      (core.wasm_get_flags_as_array it.interpreter).length ∧
    (∀ i, i < (Interpreter.getFlagsAsArray core it).length →
      ((Interpreter.getFlagsAsArray core it).getD i false = true ↔
        (core.wasm_get_flags_as_array it.interpreter).getD i 0 = 1)) ∧
    Interpreter.getFlagsAsBitfield core it =
      core.wasm_get_flags_as_number it.interpreter := by
  refine ⟨by simp [Interpreter.getFlagsAsArray], ?_, rfl⟩
  intro i hi
  have hi2 : i < (core.wasm_get_flags_as_array it.interpreter).length := by
    simpa [Interpreter.getFlagsAsArray] using hi
  rw [List.getD_eq_getElem _ _ hi, List.getD_eq_getElem _ _ hi2]
  simp [Interpreter.getFlagsAsArray]

/-- Claim C10: `getRegistersValues` returns the data-register values first,
the address-register values second, each in index order and unaltered (with
8 + 8 values when the core reports 8 of each); and `Cpu.getRegister` returns
a data register exactly for `RegisterType.Data` (number 0) and an address
register for every other number, including values outside the enum. -/
theorem cpu_snapshot_order (core : S68kCore) (c : Cpu) :
    Cpu.getRegistersValues core c =
      core.wasm_get_d_regs_value c.cpu ++ core.wasm_get_a_regs_value c.cpu ∧
    ((core.wasm_get_d_regs_value c.cpu).length = 8 →
      (core.wasm_get_a_regs_value c.cpu).length = 8 →
      (Cpu.getRegistersValues core c).length = 16 ∧
      (∀ i, i < 8 →
        (Cpu.getRegistersValues core c).getD i 0 =
          (core.wasm_get_d_regs_value c.cpu).getD i 0) ∧
      (∀ i, i < 8 →
        (Cpu.getRegistersValues core c).getD (8 + i) 0 =
          (core.wasm_get_a_regs_value c.cpu).getD i 0)) ∧
    (∀ register type, type ≠ RegisterType.Data →
      Cpu.getRegister core c register type =
        Register.mk (core.wasm_get_a_reg c.cpu register)) ∧
    (∀ register,
      Cpu.getRegister core c register RegisterType.Data =
        Register.mk (core.wasm_get_d_reg c.cpu register)) := by
  have hcat : Cpu.getRegistersValues core c =
      core.wasm_get_d_regs_value c.cpu ++ core.wasm_get_a_regs_value c.cpu := rfl
  refine ⟨hcat, ?_, ?_, fun register => by simp [Cpu.getRegister]⟩
  · intro hd ha
    refine ⟨by simp [hcat, hd, ha], ?_, ?_⟩
    · intro i hi
      have h2 : i < (core.wasm_get_d_regs_value c.cpu).length := by omega
      have h1 : i <
          (core.wasm_get_d_regs_value c.cpu ++
            core.wasm_get_a_regs_value c.cpu).length := by
        simp
        omega
      rw [hcat, List.getD_eq_getElem _ _ h1, List.getD_eq_getElem _ _ h2]
      exact List.getElem_append_left h2
    · intro i hi
      have h2 : i < (core.wasm_get_a_regs_value c.cpu).length := by omega
      have h1 : 8 + i <
          (core.wasm_get_d_regs_value c.cpu ++
            core.wasm_get_a_regs_value c.cpu).length := by
        simp
        omega
      rw [hcat, List.getD_eq_getElem _ _ h1, List.getD_eq_getElem _ _ h2]
      rw [List.getElem_append_right] <;> simp [hd, h2]
  · intro register type ht
    simp [Cpu.getRegister, ht]

/-- Claim C5: `stepWithInterruptHandler` (resp. `runWithInterruptHandler`)
invokes the handler exactly when the underlying step (resp. run) produced
status `Interrupt`, passing it the current pending interrupt;
`answerInterrupt` is applied exactly when the handler returned a result
(a handler returning nothing leaves the interrupt unanswered); and the
`Step` record (resp. status) produced before any answering is what is
returned.  Non-invocation of the handler is expressed by the result not
depending on it. -/
theorem interrupt_handler_protocol (core : S68kCore) (it : Interpreter) :
    (∀ onInterrupt,
      (Interpreter.stepWithInterruptHandler core it onInterrupt).1 =
        (core.wasm_step it.interpreter).1) ∧
    ((core.wasm_step it.interpreter).1.status ≠ InterpreterStatus.Interrupt →
      ∀ onInterrupt,
        Interpreter.stepWithInterruptHandler core it onInterrupt =
          ((core.wasm_step it.interpreter).1,
            Interpreter.mk (core.wasm_step it.interpreter).2)) ∧
    ((core.wasm_step it.interpreter).1.status = InterpreterStatus.Interrupt →
      ∀ onInterrupt,
        onInterrupt
            ((core.wasm_get_current_interrupt
              (core.wasm_step it.interpreter).2).getD default) = none →
        Interpreter.stepWithInterruptHandler core it onInterrupt =
          ((core.wasm_step it.interpreter).1,
            Interpreter.mk (core.wasm_step it.interpreter).2)) ∧
    ((core.wasm_step it.interpreter).1.status = InterpreterStatus.Interrupt →
      ∀ onInterrupt result,
        onInterrupt
            ((core.wasm_get_current_interrupt
              (core.wasm_step it.interpreter).2).getD default) = some result →
        Interpreter.stepWithInterruptHandler core it onInterrupt =
          ((core.wasm_step it.interpreter).1,
            Interpreter.mk
              (core.wasm_answer_interrupt (core.wasm_step it.interpreter).2
                result))) ∧
    (∀ onInterrupt,
      (Interpreter.runWithInterruptHandler core it onInterrupt).1 =
        (core.wasm_run it.interpreter).1) ∧
    ((core.wasm_run it.interpreter).1 ≠ InterpreterStatus.Interrupt →
      ∀ onInterrupt,
        Interpreter.runWithInterruptHandler core it onInterrupt =
          ((core.wasm_run it.interpreter).1,
            Interpreter.mk (core.wasm_run it.interpreter).2)) ∧
    ((core.wasm_run it.interpreter).1 = InterpreterStatus.Interrupt →
      ∀ onInterrupt,
        onInterrupt
            ((core.wasm_get_current_interrupt
              (core.wasm_run it.interpreter).2).getD default) = none →
        Interpreter.runWithInterruptHandler core it onInterrupt =
          ((core.wasm_run it.interpreter).1,
            Interpreter.mk (core.wasm_run it.interpreter).2)) ∧
    ((core.wasm_run it.interpreter).1 = InterpreterStatus.Interrupt →
      ∀ onInterrupt result,
        onInterrupt
            ((core.wasm_get_current_interrupt
              (core.wasm_run it.interpreter).2).getD default) = some result →
        Interpreter.runWithInterruptHandler core it onInterrupt =
          ((core.wasm_run it.interpreter).1,
            Interpreter.mk
              (core.wasm_answer_interrupt (core.wasm_run it.interpreter).2
                result))) := by
  refine ⟨?_, ?_, ?_, ?_, ?_, ?_, ?_, ?_⟩
  · intro onInterrupt
    by_cases hs :
        (core.wasm_step it.interpreter).1.status = InterpreterStatus.Interrupt
    · cases hr : onInterrupt
          ((core.wasm_get_current_interrupt
            (core.wasm_step it.interpreter).2).getD default) <;>
        simp [Interpreter.stepWithInterruptHandler,
          Interpreter.getCurrentInterrupt, hs, hr]
    · simp [Interpreter.stepWithInterruptHandler, hs]
  · intro hs onInterrupt
    simp [Interpreter.stepWithInterruptHandler, hs]
  · intro hs onInterrupt hr
    simp [Interpreter.stepWithInterruptHandler,
      Interpreter.getCurrentInterrupt, hs, hr]
  · intro hs onInterrupt result hr
    simp [Interpreter.stepWithInterruptHandler,
      Interpreter.getCurrentInterrupt, Interpreter.answerInterrupt, hs, hr]
  · intro onInterrupt
    by_cases hs : (core.wasm_run it.interpreter).1 = InterpreterStatus.Interrupt
    · cases hr : onInterrupt
          ((core.wasm_get_current_interrupt
            (core.wasm_run it.interpreter).2).getD default) <;>
        simp [Interpreter.runWithInterruptHandler,
          Interpreter.getCurrentInterrupt, hs, hr]
    · simp [Interpreter.runWithInterruptHandler, hs]
  · intro hs onInterrupt
    simp [Interpreter.runWithInterruptHandler, hs]
  · intro hs onInterrupt hr
    simp [Interpreter.runWithInterruptHandler,
      Interpreter.getCurrentInterrupt, hs, hr]
  · intro hs onInterrupt result hr
    simp [Interpreter.runWithInterruptHandler,
      Interpreter.getCurrentInterrupt, Interpreter.answerInterrupt, hs, hr]

/-- Claim C8: for a trap-free program, N sequential `step()` calls reaching a
non-Running status yield the same final state as a single `run()` call on an
identically constructed interpreter.  `run()` is the fuel-indexed loop
`runFuel` at any fuel M ≥ N (its value is stable there, since non-Running
states are absorbing); the absorption hypothesis holds along a trap-free
trace because Terminated / TerminatedByFault are absorbing and
AwaitingInterrupt never occurs. -/
theorem step_run_equiv {State : Type} (stepFn : State → State)
    (statusOf : State → InterpreterStatus) (N M : Nat) (s : State)
    (hstop : statusOf (stepN stepFn N s) ≠ InterpreterStatus.Running)
    (habs : ∀ k, k ≤ N →
      statusOf (stepN stepFn k s) ≠ InterpreterStatus.Running →
      stepFn (stepN stepFn k s) = stepN stepFn k s)
    (hM : N ≤ M) :
    stepN stepFn N s = runFuel stepFn statusOf M s := by
  induction N generalizing s M with
  | zero =>
      cases M with
      | zero => rfl
      | succ f =>
          simp only [stepN] at hstop
          rw [runFuel, if_neg hstop]
          rfl
  | succ n ih =>
      by_cases hrun : statusOf s = InterpreterStatus.Running
      · cases M with
        | zero => omega
        | succ f =>
            rw [runFuel, if_pos hrun]
            have hstep : ∀ k, stepN stepFn (k + 1) s = stepN stepFn k (stepFn s) :=
              fun k => rfl
            rw [hstep n] at hstop ⊢
            refine ih f (stepFn s) hstop ?_ (by omega)
            intro k hk h
            have := habs (k + 1) (by omega) (by rw [hstep k]; exact h)
            rw [hstep k] at this
            exact this
      · have hfix : stepFn s = s := habs 0 (Nat.zero_le _) hrun
        rw [stepN_fixpoint stepFn s hfix (n + 1)]
        cases M with
        | zero => rfl
        | succ f => rw [runFuel, if_neg hrun]

/-- A concrete machine exercising `step_run_equiv`: counting to 3 terminates,
and five explicit steps agree with the fuelled run loop. -/
def demoStep (n : Nat) : Nat := min (n + 1) 3

/-- Status map of the demo machine: states below 3 are still running. -/
def demoStatus (n : Nat) : InterpreterStatus :=
  if n < 3 then InterpreterStatus.Running else InterpreterStatus.Terminated

/-- Witness for claim C8 at a concrete machine and inputs. -/
theorem step_run_equiv_witness :
    stepN demoStep 5 0 = runFuel demoStep demoStatus 7 0 :=
  step_run_equiv demoStep demoStatus 5 7 0 (by decide) (by decide) (by decide)

/-- Claim C9: writing a byte-sized value into a 32-bit register changes only
the low 8 bits (the upper 24 bits, i.e. the quotient by 2^8, are unchanged),
writing a long-sized value overwrites all 32 bits, and reading a narrower
width returns only the low bits of the register, unsigned. -/
theorem register_width_masking (old value : Nat) (hold : old < 2 ^ 32) :
    writeRegisterSized old value Size.Byte % 2 ^ 8 = value % 2 ^ 8 ∧
    writeRegisterSized old value Size.Byte / 2 ^ 8 = old / 2 ^ 8 ∧
    writeRegisterSized old value Size.Word / 2 ^ 16 = old / 2 ^ 16 ∧
    writeRegisterSized old value Size.Long = value % 2 ^ 32 ∧
    readRegisterSized old Size.Byte = old % 2 ^ 8 ∧
    readRegisterSized old Size.Word = old % 2 ^ 16 ∧
    readRegisterSized old Size.Long = old := by
  simp only [writeRegisterSized, readRegisterSized, sizeBits]
  norm_num
  omega

/-- Witness for claim C9 at a concrete register value: byte-writing 7 into
0x00000FFF keeps the upper 24 bits. -/
theorem register_width_masking_witness :
    writeRegisterSized 4095 7 Size.Byte / 2 ^ 8 = 4095 / 2 ^ 8 :=
  (register_width_masking 4095 7 (by norm_num)).2.1
